import Mathlib

/-!
Verification development for an asynchronous QMP/qtest client prototype.

The development shallowly embeds the pure/decidable core of the Python
sources:

* `semerror.py` — semantic upgrade of `ExecuteError` by QAPI error class;
* `qmp_error.py` — the `ExecuteError` record;
* `qtest_protocol.py` — qtest framing, inbound dispatch, and the
  `execute` request pipeline;
* `qtest_api.py` — the typed qtest wrapper (`read`/`write`).

The base engine (`protocol.py`) and error taxonomy (`error.py`) are not
part of the sources at hand; the run-state machine and the error classes
they provide are modelled from the specification where needed, and each
such definition says so in its doc comment.
-/

namespace AQmp

/-! ## `models.py` / `message.py` (modelled) and `qmp_error.py` -/

/-- Modelled from the spec: `models.py` is not among the sources; an
`ErrorInfo` is the record `{class: string, desc: string}` carried by a QMP
error response.  The Python attribute `class_` keeps its source name. -/
structure ErrorInfo where
  class_ : String
  desc : String
  deriving DecidableEq, Repr

/-- Runtime class tag of an `ExecuteError` object.  `base` is the plain
`ExecuteError` class from `qmp_error.py`; the other five tags are the
subclasses declared in `semerror.py`. -/
inductive ExcClass where
  | base
  | genericError
  | commandNotFound
  | deviceNotActive
  | deviceNotFound
  | kvmMissingCap
  deriving DecidableEq, Repr

/-- Python class name of each `ExcClass` tag, as declared in
`qmp_error.py` and `semerror.py`. -/
def ExcClass.name : ExcClass → String
  | .base => "ExecuteError"
  | .genericError => "GenericError"
  | .commandNotFound => "CommandNotFound"
  | .deviceNotActive => "DeviceNotActive"
  | .deviceNotFound => "DeviceNotFound"
  | .kvmMissingCap => "KVMMissingCap"

/-- `ExecuteError` from `qmp_error.py`: execution statement returned
failure.  `M` is the message type (a QMP message; `message.py` is not
among the sources, so the payload stays abstract), `E` the type of the
attached exception/traceback objects making up the Python
`__cause__`/`__context__`/`__traceback__` chain.  `cls` records which
(sub)class the object is an instance of. -/
structure ExecuteError (M E : Type) where
  cls : ExcClass
  sent : M
  received : M
  error : ErrorInfo
  cause : Option E
  context : Option E
  traceback : Option E
  deriving DecidableEq, Repr

/-! ## `semerror.py` -/

/-- `ErrorClass` enum from `semerror.py`, based on qapi/error.json's
QapiErrorClass. -/
inductive ErrorClass where
  | generic_error
  | command_not_found
  | device_not_active
  | device_not_found
  | kvm_missing_cap
  deriving DecidableEq, Repr

/-- The `value` of each `ErrorClass` member in `semerror.py`. -/
def ErrorClass.value : ErrorClass → String
  | .generic_error => "GenericError"
  | .command_not_found => "CommandNotFound"
  | .device_not_active => "DeviceNotActive"
  | .device_not_found => "DeviceNotFound"
  | .kvm_missing_cap => "KVMMissingCap"

/-- Python's `ErrorClass(s)` value lookup: `some` member whose value is
`s`, or `none` when the constructor raises `ValueError`. -/
def ErrorClass.ofValue (s : String) : Option ErrorClass :=
  if s = "GenericError" then some .generic_error
  else if s = "CommandNotFound" then some .command_not_found
  else if s = "DeviceNotActive" then some .device_not_active
  else if s = "DeviceNotFound" then some .device_not_found
  else if s = "KVMMissingCap" then some .kvm_missing_cap
  else none

/-- `_MAP` from `semerror.py`: the subclass chosen for each error class. -/
def _MAP : ErrorClass → ExcClass
  | .generic_error => .genericError
  | .command_not_found => .commandNotFound
  | .device_not_active => .deviceNotActive
  | .device_not_found => .deviceNotFound
  | .kvm_missing_cap => .kvmMissingCap

/-- `upgrade_exception_class` from `semerror.py`: look the error class
string up in the `ErrorClass` enum; on `ValueError` return `err`
unchanged, otherwise build an instance of the mapped subclass from
`err.sent`, `err.received`, `err.error` and copy over `__cause__`,
`__context__` and `__traceback__`. -/
def upgrade_exception_class {M E : Type} (err : ExecuteError M E) :
    ExecuteError M E :=
  match ErrorClass.ofValue err.error.class_ with
  | none => err
  | some enum_val =>
      { cls := _MAP enum_val
        sent := err.sent
        received := err.received
        error := err.error
        cause := err.cause
        context := err.context
        traceback := err.traceback }

lemma ofValue_value (ec : ErrorClass) :
    ErrorClass.ofValue ec.value = some ec := by
  cases ec <;> rfl

lemma value_of_MAP_name (ec : ErrorClass) : (_MAP ec).name = ec.value := by
  cases ec <;> rfl

/-- C1: if the error class string of `e` is the `value` of some
`ErrorClass` member (i.e. one of "GenericError", "CommandNotFound",
"DeviceNotActive", "DeviceNotFound", "KVMMissingCap"),
`upgrade_exception_class` returns an instance of the subclass whose name
is that same string, with the same `sent`, `received` and `error` fields
and the same `__cause__`/`__context__` chain (and `__traceback__`); for
any other class string it returns `e` itself, un-upgraded. -/
theorem upgrade_exception_class_spec {M E : Type} (e : ExecuteError M E) :
    (∀ ec : ErrorClass, e.error.class_ = ec.value →
      upgrade_exception_class e =
        { cls := _MAP ec, sent := e.sent, received := e.received,
          error := e.error, cause := e.cause, context := e.context,
          traceback := e.traceback } ∧
      (upgrade_exception_class e).cls.name = e.error.class_) ∧
    (ErrorClass.ofValue e.error.class_ = none →
      upgrade_exception_class e = e) := by
  constructor
  · intro ec hval
    have hsome : ErrorClass.ofValue e.error.class_ = some ec := by
      rw [hval]; exact ofValue_value ec
    constructor
    · unfold upgrade_exception_class
      rw [hsome]
    · unfold upgrade_exception_class
      rw [hsome]
      simpa [hval] using value_of_MAP_name ec
  · intro hnone
    unfold upgrade_exception_class
    rw [hnone]

/-- Witness for C1: a concrete `ExecuteError` with class string
"CommandNotFound" upgrades to the `CommandNotFound` subclass with all
fields preserved, and one with the unknown class string "NovelClass"
comes back unchanged. -/
theorem upgrade_exception_class_spec_witness :
    (let e : ExecuteError Nat Nat :=
      { cls := .base, sent := 1, received := 2,
        error := { class_ := "CommandNotFound", desc := "nope" },
        cause := some 7, context := none, traceback := none }
     upgrade_exception_class e =
        { cls := .commandNotFound, sent := 1, received := 2,
          error := { class_ := "CommandNotFound", desc := "nope" },
          cause := some 7, context := none, traceback := none } ∧
      (upgrade_exception_class e).cls.name = "CommandNotFound") ∧
    (let u : ExecuteError Nat Nat :=
      { cls := .base, sent := 1, received := 2,
        error := { class_ := "NovelClass", desc := "x" },
        cause := none, context := none, traceback := none }
     upgrade_exception_class u = u) := by
  refine ⟨?_, ?_⟩
  · exact (upgrade_exception_class_spec _).1 ErrorClass.command_not_found
      (by decide)
  · exact (upgrade_exception_class_spec _).2 (by decide)

/-- C9: `upgrade_exception_class` is idempotent — upgrading an
already-upgraded `ExecuteError` yields exactly the same (sub)class and
the same `sent`, `received`, `error` fields (indeed the identical
record), so the second application changes nothing observable. -/
theorem upgrade_exception_class_idem {M E : Type} (e : ExecuteError M E) :
    upgrade_exception_class (upgrade_exception_class e) =
      upgrade_exception_class e := by
  unfold upgrade_exception_class
  cases h : ErrorClass.ofValue e.error.class_ with
  | none => simp [h]
  | some ec => simp [h]

/-! ## `error.py` (modelled) and `qtest_protocol.py` -/

/-- Modelled from the spec: `error.py` is not among the sources.  These
are the exceptions the qtest `execute` pipeline can raise: `StateError`
(operation invoked in an illegal state), `DisconnectedError` (session
ended while a request was pending; `cause` holds the id of the
`CancelledError` it was chained from), `QtestError` from
`qtest_protocol.py` (remote reported FAIL/ERR, carrying `status` and
`reason`), the plain `Exception("Unknown response: …")` that
`_bh_execute` raises on an unrecognized status token, the
`CancelledError` asyncio delivers into a cancelled task (identified by an
opaque id), and Python's `IndexError`. -/
inductive ExecExc where
  | stateError (msg : String)
  | disconnectedError (msg : String) (cause : Option Nat)
  | qtestError (status : String) (reason : String)
  | unknownResponse (msg : String)
  | cancelledError (tok : Nat)
  | indexError
  deriving DecidableEq, Repr

/-- Reply classification from `QtestProtocol._bh_execute`
(`qtest_protocol.py`): `reply_msg.pop(0)` takes the status token
(Python raises `IndexError` on an empty list); status FAIL or ERR raises
`QtestError(status, " ".join(rest))`; any status other than OK raises
`Exception("Unknown response: " + " ".join(rest))`; OK returns the
remaining tokens. -/
def classifyReply (reply : List String) : Except ExecExc (List String) :=
  match reply with
  | [] => .error .indexError
  | status :: rest =>
      if status = "FAIL" ∨ status = "ERR" then
        .error (.qtestError status (String.intercalate " " rest))
      else if status ≠ "OK" then
        .error (.unknownResponse
          ("Unknown response: " ++ String.intercalate " " rest))
      else .ok rest

/-- C2: classification of a delivered reply in `_bh_execute`: first token
"OK" returns the remaining tokens; first token "FAIL" or "ERR" raises
`QtestError` carrying that status token and the remaining tokens joined
by single spaces; any other first token raises the protocol-violation
`Exception("Unknown response: …")`. -/
theorem bh_execute_reply_classification (status : String)
    (rest : List String) :
    (status = "OK" → classifyReply (status :: rest) = .ok rest) ∧
    (status = "FAIL" ∨ status = "ERR" →
      classifyReply (status :: rest) =
        .error (.qtestError status (String.intercalate " " rest))) ∧
    (status ≠ "OK" ∧ status ≠ "FAIL" ∧ status ≠ "ERR" →
      classifyReply (status :: rest) =
        .error (.unknownResponse
          ("Unknown response: " ++ String.intercalate " " rest))) := by
  refine ⟨?_, ?_, ?_⟩
  · intro h; subst h; simp [classifyReply]
  · intro h
    rcases h with h | h <;> subst h <;> simp [classifyReply]
  · intro h
    simp [classifyReply, h.1, h.2.1, h.2.2]

/-- Witness for C2: concrete replies of each of the three shapes. -/
theorem bh_execute_reply_classification_witness :
    classifyReply ["OK", "1", "2"] = .ok ["1", "2"] ∧
    classifyReply ["ERR", "io", "fail"] =
      .error (.qtestError "ERR" "io fail") ∧
    classifyReply ["BOGUS", "x"] =
      .error (.unknownResponse "Unknown response: x") :=
  ⟨(bh_execute_reply_classification "OK" ["1", "2"]).1 rfl,
   (bh_execute_reply_classification "ERR" ["io", "fail"]).2.1 (Or.inr rfl),
   (bh_execute_reply_classification "BOGUS" ["x"]).2.2
     (by refine ⟨?_, ?_, ?_⟩ <;> decide)⟩

/-- A pending work item of `QtestProtocol`: one `(future, queue)` pair as
appended by `execute`.  The `asyncio.Task` is represented by an opaque
task id; the maxsize-1 reply queue by the FIFO list of messages put into
it. -/
structure WorkItem (M : Type) where
  fut : Nat
  queue : List M
  deriving DecidableEq, Repr

/-- The qtest-specific state of `QtestProtocol`: the unbounded inbound
async-event queue `_async_queue` and the pending-request FIFO `_pending`,
both as lists with the head oldest. -/
structure QtestState (M : Type) where
  asyncQueue : List M
  pending : List (WorkItem M)
  deriving DecidableEq, Repr

/-- Result of running `QtestProtocol._on_message`: the updated state, the
`IndexError` Python raises when `msg[0]` or `_pending[0]` is out of
range, or a `ProtocolError` (present in the error taxonomy for malformed
peer traffic, but never produced by this handler). -/
inductive OnMessageResult (M : Type) where
  | ok (st : QtestState M)
  | indexError
  | protocolError (msg : String)
  deriving DecidableEq, Repr

/-- `QtestProtocol._on_message` (`qtest_protocol.py`): if the first token
is "IRQ", `await self._async_queue.put(msg)`; otherwise take
`_fut, queue = self._pending[0]` and `await queue.put(msg)`. -/
def _on_message (st : QtestState (List String)) (msg : List String) :
    OnMessageResult (List String) :=
  match msg with
  | [] => .indexError
  | tok :: _ =>
      if tok = "IRQ" then
        .ok { st with asyncQueue := st.asyncQueue ++ [msg] }
      else
        match st.pending with
        | [] => .indexError
        | w :: ws =>
            .ok { st with
                  pending := { w with queue := w.queue ++ [msg] } :: ws }

/-- C3: inbound dispatch of `_on_message`: a message whose first token is
"IRQ" is appended to the unbounded async-event queue with the pending
list untouched; a message with any other first token is delivered to the
reply queue of the head entry (position 0) of the pending FIFO, the rest
of the pending list and the async queue untouched. -/
theorem on_message_dispatch (st : QtestState (List String)) (tok : String)
    (tl : List String) :
    (tok = "IRQ" →
      _on_message st (tok :: tl) =
        .ok { asyncQueue := st.asyncQueue ++ [tok :: tl],
              pending := st.pending }) ∧
    (tok ≠ "IRQ" → ∀ w ws, st.pending = w :: ws →
      _on_message st (tok :: tl) =
        .ok { asyncQueue := st.asyncQueue,
              pending := { w with queue := w.queue ++ [tok :: tl] } :: ws }) := by
  constructor
  · intro h
    simp [_on_message, h]
  · intro h w ws hp
    simp [_on_message, h, hp]

/-- Witness for C3: an "IRQ raise 0" line goes to the async queue leaving
one pending entry alone; an "OK" line goes to that entry's reply queue. -/
theorem on_message_dispatch_witness :
    (_on_message { asyncQueue := [], pending := [⟨5, []⟩] }
        ["IRQ", "raise", "0"] =
      .ok { asyncQueue := [["IRQ", "raise", "0"]], pending := [⟨5, []⟩] }) ∧
    (_on_message { asyncQueue := [], pending := [⟨5, []⟩] } ["OK"] =
      .ok { asyncQueue := [], pending := [⟨5, [["OK"]]⟩] }) :=
  ⟨(on_message_dispatch { asyncQueue := [], pending := [⟨5, []⟩] }
      "IRQ" ["raise", "0"]).1 rfl,
   (on_message_dispatch { asyncQueue := [], pending := [⟨5, []⟩] }
      "OK" []).2 (by decide) ⟨5, []⟩ [] rfl⟩

/-- C10: for a non-"IRQ" first token, a non-empty pending list is exactly
what keeps the `_pending[0]` indexing in bounds (the handler succeeds);
with an empty pending list the handler fails with `IndexError` — not
with a `ProtocolError`. -/
theorem on_message_empty_pending (st : QtestState (List String))
    (tok : String) (tl : List String) (h : tok ≠ "IRQ") :
    (st.pending ≠ [] →
      ∃ st', _on_message st (tok :: tl) = .ok st') ∧
    (st.pending = [] →
      _on_message st (tok :: tl) = .indexError ∧
      ∀ m, _on_message st (tok :: tl) ≠ .protocolError m) := by
  constructor
  · intro hp
    match hpe : st.pending with
    | [] => exact absurd hpe hp
    | w :: ws =>
        exact ⟨_, ((on_message_dispatch st tok tl).2 h w ws hpe)⟩
  · intro hp
    refine ⟨?_, ?_⟩
    · simp [_on_message, h, hp]
    · intro m
      simp [_on_message, h, hp]

/-- Witness for C10: an unsolicited "OK" with nothing pending raises
`IndexError`; with one entry pending it is handled. -/
theorem on_message_empty_pending_witness :
    (∃ st', _on_message { asyncQueue := [], pending := [⟨3, []⟩] } ["OK"] =
      .ok st') ∧
    (_on_message { asyncQueue := [], pending := [] } ["OK"] =
        OnMessageResult.indexError ∧
      ∀ m, _on_message { asyncQueue := [], pending := [] } ["OK"] ≠
        .protocolError m) :=
  ⟨(on_message_empty_pending { asyncQueue := [], pending := [⟨3, []⟩] }
      "OK" [] (by decide)).1 (by decide),
   (on_message_empty_pending { asyncQueue := [], pending := [] }
      "OK" [] (by decide)).2 rfl⟩

/-! ## The `execute` pipeline of `qtest_protocol.py`

The base engine (`protocol.py`) is not among the sources; its connection
state machine and state predicates are modelled from the spec.  The
qtest-side code (`execute`, `_bh_execute`, `_bh_disconnect`, `_cleanup`)
is embedded from `qtest_protocol.py`. -/

/-- Modelled from the spec: `protocol.py` is not among the sources.  The
session state machine of the base engine is the enumeration
`Idle → Connecting → Running → Disconnecting → Idle`. -/
inductive RunState where
  | Idle
  | Connecting
  | Running
  | Disconnecting
  deriving DecidableEq, Repr

/-- Modelled from the spec: the base engine's `disconnecting` predicate
is true exactly in state `Disconnecting`. -/
def disconnecting (s : RunState) : Bool := s = RunState.Disconnecting

/-- Modelled from the spec: the base engine's `running` predicate is true
exactly in state `Running`. -/
def running (s : RunState) : Bool := s = RunState.Running

/-- The engine state visible to the qtest `execute` pipeline: the run
state (from the base engine), the `_pending` work-item list, and the
`_outgoing` message queue of requests handed to the writer task. -/
structure ExecState where
  runstate : RunState
  pending : List (WorkItem (List String))
  outgoing : List (List String)
  deriving DecidableEq, Repr

/-- Outcome of the task awaited by `execute`: either a reply message is
delivered to the work item's queue by `_on_message`, or the task is
cancelled (as `_bh_disconnect` does to every pending future), carrying
the id of the `CancelledError` that cancelled it. -/
inductive AwaitEvent where
  | reply (msg : List String)
  | cancelled (tok : Nat)
  deriving DecidableEq, Repr

/-- `QtestProtocol._bh_execute` (`qtest_protocol.py`) as a function of
the run state when the request is about to be sent: raise
`StateError("QMP is not running.")` unless the engine is running;
otherwise `put_nowait` the message on the outgoing queue and await the
reply queue, whose outcome `ev` either delivers a reply (classified by
`classifyReply`) or cancels the task.  Returns the outgoing queue after
the call, paired with the task's result. -/
def bh_execute (rs : RunState) (outgoing : List (List String))
    (msg : List String) (ev : AwaitEvent) :
    List (List String) × Except ExecExc (List String) :=
  if ¬ running rs then
    (outgoing, .error (.stateError "QMP is not running."))
  else
    match ev with
    | .reply r => (outgoing ++ [msg], classifyReply r)
    | .cancelled tok => (outgoing ++ [msg], .error (.cancelledError tok))

/-- The appending of the fresh `(future, queue)` work item to `_pending`
performed by `execute` before it awaits the task; `w` is the fresh task
id, and the new maxsize-1 reply queue starts empty. -/
def execute_enqueue (st : ExecState) (w : Nat) :
    List (WorkItem (List String)) :=
  st.pending ++ [⟨w, []⟩]

/-- `QtestProtocol.execute` (`qtest_protocol.py`): build
`msg = [cmd] + args`; raise `StateError` if the engine is disconnecting;
otherwise create a fresh reply queue and task (id `w`), append the work
item to `_pending`, await the task (`_bh_execute` with outcome `ev`),
turn a `CancelledError` into `DisconnectedError("Disconnected")` chained
from it, and in the `finally` block remove the work item (the first
`_pending` entry holding this task) again. -/
def execute (st : ExecState) (cmd : String) (args : List String) (w : Nat)
    (ev : AwaitEvent) : ExecState × Except ExecExc (List String) :=
  let msg := cmd :: args
  if disconnecting st.runstate then
    (st, .error (.stateError ("Qtest is disconnecting/disconnected." ++
      " Call disconnect() to fully disconnect.")))
  else
    let pending1 := execute_enqueue st w
    let out := bh_execute st.runstate st.outgoing msg ev
    let res : Except ExecExc (List String) :=
      match out.2 with
      | .error (.cancelledError tok) =>
          .error (.disconnectedError "Disconnected" (some tok))
      | r => r
    ({ st with pending := pending1.eraseP (fun x => x.fut == w),
               outgoing := out.1 }, res)

/-- The `assert not self._pending` check in `QtestProtocol._cleanup`. -/
def cleanup_pending_ok (st : ExecState) : Bool := st.pending.isEmpty

/-- `QtestProtocol._bh_disconnect` (`qtest_protocol.py`): after the
base-class teardown it calls `fut.cancel()` on the future of every entry
still in `_pending`. -/
def bh_disconnect_cancelled_futs (st : ExecState) : List Nat :=
  st.pending.map (fun x => x.fut)

lemma eraseP_append_fresh (l : List (WorkItem (List String))) (w : Nat)
    (q : List (List String)) (hw : ∀ x ∈ l, x.fut ≠ w) :
    List.eraseP (fun x => x.fut == w) (l ++ [WorkItem.mk w q]) = l := by
  induction l with
  | nil => simp [List.eraseP]
  | cons a l ih =>
      have ha : (a.fut == w) = false :=
        beq_eq_false_iff_ne.mpr (hw a (by simp))
      simp only [List.cons_append, List.eraseP_cons, ha, cond_false]
      rw [ih (fun x hx => hw x (by simp [hx]))]

/-- C4: `execute` raises `StateError` whenever the session is
disconnecting — returning before anything is enqueued, with the whole
state unchanged — and the task raises `StateError` whenever the engine is
not running at the point the request would be sent, leaving the outgoing
queue untouched; in particular a call in state `Idle` fails with
`StateError("QMP is not running.")`. -/
theorem execute_state_errors (st : ExecState) (cmd : String)
    (args : List String) (w : Nat) (ev : AwaitEvent) :
    (st.runstate = .Disconnecting →
      execute st cmd args w ev =
        (st, .error (.stateError ("Qtest is disconnecting/disconnected." ++
          " Call disconnect() to fully disconnect.")))) ∧
    (st.runstate ≠ .Running →
      (∃ m, (execute st cmd args w ev).2 = .error (.stateError m)) ∧
      (execute st cmd args w ev).1.outgoing = st.outgoing) ∧
    (st.runstate = .Idle →
      (execute st cmd args w ev).2 =
        .error (.stateError "QMP is not running.")) := by
  refine ⟨?_, ?_, ?_⟩
  · intro h
    simp [execute, disconnecting, h]
  · intro h
    by_cases hd : st.runstate = .Disconnecting
    · simp [execute, disconnecting, hd]
    · have hr : running st.runstate = false := by
        simp [running]; exact h
      constructor
      · exact ⟨"QMP is not running.",
          by simp [execute, disconnecting, hd, bh_execute, hr]⟩
      · simp [execute, disconnecting, hd, bh_execute, hr]
  · intro h
    simp [execute, disconnecting, h, bh_execute, running]

/-- Witness for C4: calling `execute` while disconnecting, and calling it
in state `Idle`, both fail with `StateError`. -/
theorem execute_state_errors_witness :
    (execute (ExecState.mk .Disconnecting [] [])
        "read" ["0", "4"] 0 (.reply ["OK"]) =
      (ExecState.mk .Disconnecting [] [],
        .error (.stateError ("Qtest is disconnecting/disconnected." ++
          " Call disconnect() to fully disconnect.")))) ∧
    (execute (ExecState.mk .Idle [] [])
        "read" ["0", "4"] 0 (.reply ["OK"])).2 =
      .error (.stateError "QMP is not running.") :=
  ⟨(execute_state_errors (ExecState.mk .Disconnecting [] [])
      "read" ["0", "4"] 0 (.reply ["OK"])).1 rfl,
   (execute_state_errors (ExecState.mk .Idle [] [])
      "read" ["0", "4"] 0 (.reply ["OK"])).2.2 rfl⟩

/-- C5: provided the task id is fresh, the work item appended by
`execute` is removed again on every exit path — whatever the await
outcome (normal reply, error reply, or cancellation) the final pending
list equals the initial one; while the call is suspended the pending list
is the old one plus exactly this one entry; and when `execute` starts
from an empty pending list, the `assert not self._pending` of `_cleanup`
holds again after it finishes. -/
theorem execute_pending_cleanup (st : ExecState) (cmd : String)
    (args : List String) (w : Nat) (ev : AwaitEvent)
    (hw : ∀ x ∈ st.pending, x.fut ≠ w) :
    (execute st cmd args w ev).1.pending = st.pending ∧
    (execute_enqueue st w).length = st.pending.length + 1 ∧
    (st.pending = [] →
      cleanup_pending_ok (execute st cmd args w ev).1 = true) := by
  have hafter : (execute st cmd args w ev).1.pending = st.pending := by
    by_cases hd : disconnecting st.runstate
    · simp [execute, hd]
    · simp only [execute, hd, Bool.false_eq_true, if_false]
      simpa [execute_enqueue] using eraseP_append_fresh st.pending w [] hw
  refine ⟨hafter, by simp [execute_enqueue], ?_⟩
  intro hp
  simp [cleanup_pending_ok, hafter, hp]

/-- Witness for C5: a concrete call over one already-pending entry leaves
the pending list as it was, and a call over an empty pending list
restores `_cleanup`'s assertion. -/
theorem execute_pending_cleanup_witness :
    (∀ x ∈ (ExecState.mk .Running [⟨1, []⟩] []).pending, x.fut ≠ 2) ∧
    (execute (ExecState.mk .Running [⟨1, []⟩] [])
      "inb" ["0"] 2 (.reply ["OK", "255"])).1.pending = [⟨1, []⟩] :=
  ⟨by decide,
   (execute_pending_cleanup (ExecState.mk .Running [⟨1, []⟩] [])
      "inb" ["0"] 2 (.reply ["OK", "255"]) (by decide)).1⟩

/-- C6: when the awaited task of an `execute` call is cancelled during
the wait — `_bh_disconnect` cancels the future of every pending entry on
teardown — `execute` raises `DisconnectedError("Disconnected")` whose
cause is the `CancelledError` that cancelled it. -/
theorem execute_cancelled_disconnected (st : ExecState) (cmd : String)
    (args : List String) (w : Nat) (tok : Nat)
    (h : st.runstate = .Running) :
    (execute st cmd args w (.cancelled tok)).2 =
      .error (.disconnectedError "Disconnected" (some tok)) ∧
    ∀ x ∈ st.pending, x.fut ∈ bh_disconnect_cancelled_futs st := by
  constructor
  · simp [execute, disconnecting, h, bh_execute, running]
  · intro x hx
    simp [bh_disconnect_cancelled_futs]
    exact ⟨x, hx, rfl⟩

/-- Witness for C6: a concrete running-state call whose task is cancelled
surfaces as `DisconnectedError` chained from that cancellation. -/
theorem execute_cancelled_disconnected_witness :
    (execute (ExecState.mk .Running [] [])
      "clock_step" [] 4 (.cancelled 9)).2 =
      .error (.disconnectedError "Disconnected" (some 9)) :=
  (execute_cancelled_disconnected (ExecState.mk .Running [] [])
    "clock_step" [] 4 9 rfl).1

/-! ## qtest framing (`_do_send` / `_do_recv` of `qtest_protocol.py`)

The wire carries UTF-8 encoded text; encoding and decoding are mutually
inverse on the strings involved, so the framing is modelled at the
decoded-text level, with the characters of a line as a `List Char`. -/

/-- The whitespace characters removed from both ends by Python's
`str.strip()`: ASCII whitespace and the Unicode space characters CPython
recognizes. -/
def pySpaceChars : List Char :=
  [' ', '\t', '\n', '\x0b', '\x0c', '\r',
   '\x1c', '\x1d', '\x1e', '\x1f', '\x85',
   '\u00A0', '\u1680',
   '\u2000', '\u2001', '\u2002', '\u2003', '\u2004', '\u2005',
   '\u2006', '\u2007', '\u2008', '\u2009', '\u200A',
   '\u2028', '\u2029', '\u202F', '\u205F', '\u3000']

/-- Whether `str.strip()` treats `c` as whitespace. -/
def pyIsSpace (c : Char) : Bool := pySpaceChars.contains c

/-- Python's `str.strip()` on the characters of a line: drop whitespace
from the front, then from the back. -/
def pyStrip (l : List Char) : List Char :=
  ((l.dropWhile pyIsSpace).reverse.dropWhile pyIsSpace).reverse

/-- Python's `str.split(' ')` on the characters of a line: cut at every
single space character, keeping empty pieces (`''.split(' ') == ['']`). -/
def splitSp : List Char → List (List Char)
  | [] => [[]]
  | c :: rest =>
      match splitSp rest with
      | [] => [[]]
      | t :: ts => if c = ' ' then [] :: t :: ts else (c :: t) :: ts

/-- Python's `' '.join` on token character lists (the body of
`" ".join(msg)`). -/
def joinSp : List (List Char) → List Char
  | [] => []
  | [t] => t
  | t :: t2 :: ts => t ++ ' ' :: joinSp (t2 :: ts)

/-- `QtestProtocol._do_send` (`qtest_protocol.py`) at the text level:
`" ".join(msg) + "\n"` is the line written (UTF-8 encoded) to the
stream. -/
def do_send_line (msg : List String) : String :=
  String.intercalate " " msg ++ "\n"

/-- `QtestProtocol._do_recv` (`qtest_protocol.py`) at the text level: the
received line (UTF-8 decoded) is stripped and split on single spaces:
`msg_bytes.decode('utf-8').strip().split(' ')`. -/
def do_recv_line (line : String) : List String :=
  (splitSp (pyStrip line.data)).map String.mk

lemma splitSp_exists (l : List Char) : ∃ u us, splitSp l = u :: us := by
  induction l with
  | nil => exact ⟨[], [], rfl⟩
  | cons c rest ih =>
      obtain ⟨u, us, h⟩ := ih
      by_cases hc : c = ' '
      · exact ⟨[], u :: us, by simp [splitSp, h, hc]⟩
      · exact ⟨c :: u, us, by simp [splitSp, h, hc]⟩

lemma splitSp_nosp (t : List Char) (h : ∀ c ∈ t, c ≠ ' ') :
    splitSp t = [t] := by
  induction t with
  | nil => rfl
  | cons c rest ih =>
      have hrec : splitSp rest = [rest] :=
        ih (fun c' hc' => h c' (by simp [hc']))
      have hc : c ≠ ' ' := h c (by simp)
      simp [splitSp, hrec, hc]

lemma splitSp_append_nosp (t : List Char) (l : List Char)
    (u : List Char) (us : List (List Char)) (ht : ∀ c ∈ t, c ≠ ' ')
    (hl : splitSp l = u :: us) :
    splitSp (t ++ l) = (t ++ u) :: us := by
  induction t with
  | nil => simpa using hl
  | cons c rest ih =>
      have hrec : splitSp (rest ++ l) = (rest ++ u) :: us :=
        ih (fun c' hc' => ht c' (by simp [hc']))
      have hc : c ≠ ' ' := ht c (by simp)
      simp [splitSp, hrec, hc]

lemma splitSp_joinSp (ts : List (List Char)) (h0 : ts ≠ [])
    (h : ∀ t ∈ ts, ∀ c ∈ t, c ≠ ' ') :
    splitSp (joinSp ts) = ts := by
  induction ts with
  | nil => exact absurd rfl h0
  | cons t rest ih =>
      cases rest with
      | nil =>
          exact splitSp_nosp t (fun c hc => h t (by simp) c hc)
      | cons t2 ts2 =>
          have hrec : splitSp (joinSp (t2 :: ts2)) = t2 :: ts2 :=
            ih (by simp) (fun u hu c hc => h u (by simp [hu]) c hc)
          have hsp : splitSp (' ' :: joinSp (t2 :: ts2)) =
              [] :: t2 :: ts2 := by
            simp [splitSp, hrec]
          have := splitSp_append_nosp t (' ' :: joinSp (t2 :: ts2))
            [] (t2 :: ts2) (fun c hc => h t (by simp) c hc) hsp
          simpa [joinSp] using this

lemma joinSp_glue (x y : List Char) (l : List (List Char)) :
    joinSp ((x ++ ' ' :: y) :: l) = x ++ ' ' :: joinSp (y :: l) := by
  cases l <;> simp [joinSp, List.append_assoc]

lemma intercalate_go_data (l : List String) (a : String) :
    (String.intercalate.go a " " l).data =
      joinSp (a.data :: l.map String.data) := by
  induction l generalizing a with
  | nil => simp [String.intercalate.go, joinSp]
  | cons b bs ih =>
      have hdata : (a ++ " " ++ b).data = a.data ++ ' ' :: b.data := by
        simp [String.data_append]
      calc (String.intercalate.go a " " (b :: bs)).data
          = (String.intercalate.go (a ++ " " ++ b) " " bs).data := by
            simp [String.intercalate.go]
        _ = joinSp ((a ++ " " ++ b).data :: bs.map String.data) := ih _
        _ = joinSp ((a.data ++ ' ' :: b.data) :: bs.map String.data) := by
            rw [hdata]
        _ = a.data ++ ' ' :: joinSp (b.data :: bs.map String.data) :=
            joinSp_glue _ _ _
        _ = joinSp (a.data :: (b :: bs).map String.data) := by
            simp [joinSp]

lemma intercalate_data (msg : List String) (h : msg ≠ []) :
    (String.intercalate " " msg).data = joinSp (msg.map String.data) := by
  cases msg with
  | nil => exact absurd rfl h
  | cons a as =>
      have : String.intercalate " " (a :: as) =
          String.intercalate.go a " " as := by
        simp [String.intercalate]
      rw [this, intercalate_go_data]
      simp [joinSp]

lemma head_not_space_of_tokens (ts : List (List Char)) (h0 : ts ≠ [])
    (h1 : ∀ t ∈ ts, t ≠ [])
    (h2 : ∀ t ∈ ts, ∀ c ∈ t, pyIsSpace c = false) :
    ∃ c r, joinSp ts = c :: r ∧ pyIsSpace c = false := by
  cases ts with
  | nil => exact absurd rfl h0
  | cons t rest =>
      cases t with
      | nil => exact absurd rfl (h1 [] (by simp))
      | cons c t' =>
          have hc : pyIsSpace c = false :=
            h2 (c :: t') (by simp) c (by simp)
          cases rest with
          | nil => exact ⟨c, t', by simp [joinSp], hc⟩
          | cons t2 ts2 =>
              exact ⟨c, t' ++ ' ' :: joinSp (t2 :: ts2),
                by simp [joinSp], hc⟩

lemma last_not_space_of_tokens (ts : List (List Char)) (h0 : ts ≠ [])
    (h1 : ∀ t ∈ ts, t ≠ [])
    (h2 : ∀ t ∈ ts, ∀ c ∈ t, pyIsSpace c = false) :
    ∃ c r, (joinSp ts).reverse = c :: r ∧ pyIsSpace c = false := by
  induction ts with
  | nil => exact absurd rfl h0
  | cons t rest ih =>
      cases rest with
      | nil =>
          have hne : t ≠ [] := h1 t (by simp)
          match hrev : t.reverse with
          | [] => exact absurd (by simpa using hrev) hne
          | c :: r =>
              have hmem : c ∈ t := by
                have : c ∈ t.reverse := by simp [hrev]
                simpa using this
              exact ⟨c, r, by simp [joinSp, hrev],
                h2 t (by simp) c hmem⟩
      | cons t2 ts2 =>
          obtain ⟨c, r, hrev, hc⟩ := ih (by simp)
            (fun u hu => h1 u (by simp [hu]))
            (fun u hu c' hc' => h2 u (by simp [hu]) c' hc')
          refine ⟨c, r ++ [' '] ++ t.reverse, ?_, hc⟩
          simp [joinSp, hrev]

lemma pyStrip_sent_line (ts : List (List Char)) (h0 : ts ≠ [])
    (h1 : ∀ t ∈ ts, t ≠ [])
    (h2 : ∀ t ∈ ts, ∀ c ∈ t, pyIsSpace c = false) :
    pyStrip (joinSp ts ++ ['\n']) = joinSp ts := by
  obtain ⟨c, r, hh, hc⟩ := head_not_space_of_tokens ts h0 h1 h2
  obtain ⟨c', r', hr, hc'⟩ := last_not_space_of_tokens ts h0 h1 h2
  rw [hh] at hr ⊢
  unfold pyStrip
  have hfront : List.dropWhile pyIsSpace ((c :: r) ++ ['\n']) =
      (c :: r) ++ ['\n'] := by
    rw [List.cons_append]
    simp [List.dropWhile_cons, hc]
  rw [hfront]
  have hrev2 : ((c :: r) ++ ['\n']).reverse = '\n' :: (c :: r).reverse := by
    simp
  rw [hrev2, hr]
  have hnl : pyIsSpace '\n' = true := by decide
  have hback : List.dropWhile pyIsSpace ('\n' :: c' :: r') = c' :: r' := by
    simp [List.dropWhile_cons, hnl, hc']
  rw [hback, ← hr, List.reverse_reverse]

/-- C7: round trip of the qtest framing — for every non-empty token
sequence whose tokens are non-empty and free of whitespace, the line
built by `_do_send` (`" ".join(msg) + "\n"`, UTF-8 on the wire) is mapped
by the receive side of `_do_recv` (decode, `strip()`, `split(' ')`) back
to exactly the original tokens. -/
theorem qtest_framing_roundtrip (msg : List String) (h0 : msg ≠ [])
    (h1 : ∀ t ∈ msg, t.data ≠ [])
    (h2 : ∀ t ∈ msg, ∀ c ∈ t.data, pyIsSpace c = false) :
    do_recv_line (do_send_line msg) = msg := by
  have hts1 : ∀ t ∈ msg.map String.data, t ≠ [] := by
    intro t ht
    obtain ⟨u, hu, rfl⟩ := List.mem_map.mp ht
    exact h1 u hu
  have hts2 : ∀ t ∈ msg.map String.data, ∀ c ∈ t, pyIsSpace c = false := by
    intro t ht c hc
    obtain ⟨u, hu, rfl⟩ := List.mem_map.mp ht
    exact h2 u hu c hc
  have hts0 : msg.map String.data ≠ [] := by simpa using h0
  have hdata : (do_send_line msg).data =
      joinSp (msg.map String.data) ++ ['\n'] := by
    unfold do_send_line
    rw [String.data_append, intercalate_data msg h0]
  unfold do_recv_line
  rw [hdata, pyStrip_sent_line _ hts0 hts1 hts2,
    splitSp_joinSp _ hts0 (fun t ht c hc => by
      intro he
      have := hts2 t ht c hc
      rw [he] at this
      exact absurd this (by decide))]
  rw [List.map_map]
  have hcomp : (String.mk ∘ String.data) = (id : String → String) :=
    funext fun s => rfl
  rw [hcomp, List.map_id]

/-- Witness for C7: the concrete request line for `write 8 2 0xabcd`
frames and unframes to itself. -/
theorem qtest_framing_roundtrip_witness :
    (["write", "8", "2", "0xabcd"] : List String) ≠ [] ∧
    do_recv_line (do_send_line ["write", "8", "2", "0xabcd"]) =
      ["write", "8", "2", "0xabcd"] :=
  ⟨by decide,
   qtest_framing_roundtrip ["write", "8", "2", "0xabcd"] (by decide)
     (by decide) (by decide)⟩

/-! ## `qtest_api.py`: `Qtest.write` / `Qtest.read` round trip

The wrapper stringifies integer arguments in decimal (Python `str`),
sends hex blobs as `'0x' + data.hex()`, and decodes replies with
`bytes.fromhex`.  The server side is the memory-backed fixture the spec
posits for the round-trip law. -/

/-- The character of a decimal digit. -/
def digitChar (d : Nat) : Char := Char.ofNat (48 + d)

/-- Decimal digits (most significant first) of `n`, empty for `n = 0`;
`fuel` bounds the recursion and any `fuel ≥ n` is enough. -/
def toDecAux : Nat → Nat → List Char
  | 0, _ => []
  | fuel + 1, n =>
      if n = 0 then [] else toDecAux fuel (n / 10) ++ [digitChar (n % 10)]

/-- Python's `str(n)` for a non-negative integer. -/
def pyStrNat (n : Nat) : String :=
  if n = 0 then "0" else String.mk (toDecAux n n)

/-- Value of a decimal digit character. -/
def digitVal (c : Char) : Option Nat :=
  if '0' ≤ c ∧ c ≤ '9' then some (c.toNat - 48) else none

/-- Accumulating decimal parse of a digit string. -/
def parseDecAux (acc : Nat) : List Char → Option Nat
  | [] => some acc
  | c :: rest =>
      match digitVal c with
      | none => none
      | some d => parseDecAux (10 * acc + d) rest

/-- Modelled from the spec: the server fixture's decimal integer parsing
of request arguments (the counterpart of the wire format "integers are
decimal on send"). -/
def parseDec (s : String) : Option Nat :=
  if s.data = [] then none else parseDecAux 0 s.data

/-- Lowercase hex digit character, as produced by Python `bytes.hex()`. -/
def hexDigitChar (d : Nat) : Char :=
  if d < 10 then Char.ofNat (48 + d) else Char.ofNat (87 + d)

/-- Python's `bytes.hex()`: two lowercase hex digits per byte. -/
def bytesHex : List Nat → List Char
  | [] => []
  | b :: bs => hexDigitChar (b / 16) :: hexDigitChar (b % 16) :: bytesHex bs

/-- Value of a hex digit character (either case), as accepted by
`bytes.fromhex`. -/
def hexDigitVal (c : Char) : Option Nat :=
  if '0' ≤ c ∧ c ≤ '9' then some (c.toNat - 48)
  else if 'a' ≤ c ∧ c ≤ 'f' then some (c.toNat - 87)
  else if 'A' ≤ c ∧ c ≤ 'F' then some (c.toNat - 55)
  else none

/-- Python's `bytes.fromhex` (without embedded whitespace): parse pairs
of hex digits; an odd length or a non-hex character raises `ValueError`
(`none`). -/
def fromHex : List Char → Option (List Nat)
  | [] => some []
  | [_] => none
  | c1 :: c2 :: rest =>
      match hexDigitVal c1, hexDigitVal c2, fromHex rest with
      | some d1, some d2, some bs => some ((16 * d1 + d2) :: bs)
      | _, _, _ => none

/-- Modelled from the spec: guest memory of the memory-backed server
fixture, written at `data.length` consecutive addresses from `addr`. -/
def memWrite (m : Nat → Nat) (addr : Nat) (data : List Nat) :
    Nat → Nat :=
  fun a =>
    if addr ≤ a ∧ a < addr + data.length then data.getD (a - addr) 0
    else m a

/-- Modelled from the spec: `len` consecutive guest bytes from `addr`. -/
def memRead (m : Nat → Nat) (addr len : Nat) : List Nat :=
  (List.range len).map (fun i => m (addr + i))

/-- Modelled from the spec: the memory-backed server fixture.  It parses
`write ADDR SIZE 0xDATA` (decimal integers, `0x`-prefixed hex blob),
updates guest memory and answers a bare `OK`; it answers `read ADDR SIZE`
with `OK 0x<hex of the bytes read>`; anything malformed gets `FAIL`. -/
def serverStep (m : Nat → Nat) (msg : List String) :
    (Nat → Nat) × List String :=
  match msg with
  | ["write", a, l, d] =>
      match parseDec a, parseDec l,
          (if d.data.take 2 = ['0', 'x'] then fromHex (d.data.drop 2)
           else none) with
      | some addr, some len, some bs =>
          if bs.length = len then (memWrite m addr bs, ["OK"])
          else (m, ["FAIL", "length mismatch"])
      | _, _, _ => (m, ["FAIL", "bad arguments"])
  | ["read", a, l] =>
      match parseDec a, parseDec l with
      | some addr, some len =>
          (m, ["OK", "0x" ++ String.mk (bytesHex (memRead m addr len))])
      | _, _ => (m, ["FAIL", "bad arguments"])
  | _ => (m, ["FAIL", "unknown command"])

/-- The request tokens `Qtest.write` hands to `execute`
(`qtest_api.py`): `'write', str(addr), str(len(data)), '0x' + data.hex()`. -/
def qtest_write_msg (addr : Nat) (data : List Nat) : List String :=
  ["write", pyStrNat addr, pyStrNat data.length,
   "0x" ++ String.mk (bytesHex data)]

/-- The request tokens `Qtest.read` hands to `execute` (`qtest_api.py`):
`'read', str(addr), str(size)`. -/
def qtest_read_msg (addr size : Nat) : List String :=
  ["read", pyStrNat addr, pyStrNat size]

/-- `Qtest.write`'s validation of the execute result (`qtest_api.py`):
`assert not res` — the reply must carry no tokens beyond the status. -/
def qtest_write_check (res : List String) : Bool := res.isEmpty

/-- `Qtest.read`'s handling of the execute result (`qtest_api.py`):
`assert len(res) == 1`, `assert res[0][:2] == '0x'`, then
`bytes.fromhex(res[0][2:])`; `none` on an assertion or decode failure. -/
def qtest_read_finish (res : List String) : Option (List Nat) :=
  match res with
  | [s] =>
      if s.data.take 2 = ['0', 'x'] then fromHex (s.data.drop 2) else none
  | _ => none

/-- `Qtest.write(addr, data)` followed by `Qtest.read(addr, len(data))`
against the memory-backed server fixture, each reply going through
`_bh_execute`'s `classifyReply`: the bytes the read returns, or `none`
if any step fails. -/
def write_then_read (m : Nat → Nat) (addr : Nat) (data : List Nat) :
    Option (List Nat) :=
  let w := serverStep m (qtest_write_msg addr data)
  match classifyReply w.2 with
  | .error _ => none
  | .ok res =>
      if qtest_write_check res then
        let r := serverStep w.1 (qtest_read_msg addr data.length)
        match classifyReply r.2 with
        | .error _ => none
        | .ok res2 => qtest_read_finish res2
      else none

lemma digitVal_digitChar : ∀ d, d < 10 → digitVal (digitChar d) = some d := by
  decide

lemma hexDigitVal_hexDigitChar :
    ∀ d, d < 16 → hexDigitVal (hexDigitChar d) = some d := by
  decide

lemma parseDecAux_append (l1 l2 : List Char) (acc : Nat) :
    parseDecAux acc (l1 ++ l2) =
      match parseDecAux acc l1 with
      | none => none
      | some a => parseDecAux a l2 := by
  induction l1 generalizing acc with
  | nil => simp [parseDecAux]
  | cons c rest ih =>
      simp only [List.cons_append, parseDecAux]
      cases digitVal c with
      | none => simp
      | some d => simpa using ih (10 * acc + d)

lemma parseDecAux_toDecAux (fuel : Nat) :
    ∀ n acc, n ≤ fuel →
      parseDecAux acc (toDecAux fuel n) =
        some (acc * 10 ^ (toDecAux fuel n).length + n) := by
  induction fuel with
  | zero =>
      intro n acc hn
      have : n = 0 := Nat.le_zero.mp hn
      subst this
      simp [toDecAux, parseDecAux]
  | succ fuel ih =>
      intro n acc hn
      by_cases h0 : n = 0
      · subst h0
        simp [toDecAux, parseDecAux]
      · have hstep : toDecAux (fuel + 1) n =
            toDecAux fuel (n / 10) ++ [digitChar (n % 10)] := by
          simp [toDecAux, h0]
        have hdiv : n / 10 ≤ fuel := by
          have hlt : n / 10 < n := Nat.div_lt_self (Nat.pos_of_ne_zero h0)
            (by omega)
          omega
        rw [hstep, parseDecAux_append, ih (n / 10) acc hdiv]
        have hd : digitVal (digitChar (n % 10)) = some (n % 10) :=
          digitVal_digitChar _ (Nat.mod_lt n (by omega))
        simp only [parseDecAux, hd]
        have hdm : 10 * (n / 10) + n % 10 = n := Nat.div_add_mod n 10
        congr 1
        rw [List.length_append, List.length_singleton, pow_succ]
        ring_nf
        omega

lemma parseDec_pyStrNat (n : Nat) : parseDec (pyStrNat n) = some n := by
  by_cases h0 : n = 0
  · subst h0; decide
  · have hpos : 0 < n := Nat.pos_of_ne_zero h0
    have hstep : toDecAux n n =
        toDecAux (n - 1) (n / 10) ++ [digitChar (n % 10)] := by
      obtain ⟨m, rfl⟩ := Nat.exists_eq_succ_of_ne_zero h0
      simp [toDecAux, h0]
    have hne : toDecAux n n ≠ [] := by
      rw [hstep]; simp
    have hparse : parseDecAux 0 (toDecAux n n) =
        some (0 * 10 ^ (toDecAux n n).length + n) :=
      parseDecAux_toDecAux n n 0 (le_refl n)
    have hs : pyStrNat n = String.mk (toDecAux n n) := by
      unfold pyStrNat
      rw [if_neg h0]
    rw [hs]
    unfold parseDec
    have hdata : (String.mk (toDecAux n n)).data = toDecAux n n := rfl
    rw [hdata, if_neg hne]
    simpa using hparse

lemma fromHex_bytesHex (bs : List Nat) (h : ∀ b ∈ bs, b < 256) :
    fromHex (bytesHex bs) = some bs := by
  induction bs with
  | nil => rfl
  | cons b rest ih =>
      have hb : b < 256 := h b (by simp)
      have h1 : hexDigitVal (hexDigitChar (b / 16)) = some (b / 16) :=
        hexDigitVal_hexDigitChar _ (by omega)
      have h2 : hexDigitVal (hexDigitChar (b % 16)) = some (b % 16) :=
        hexDigitVal_hexDigitChar _ (Nat.mod_lt b (by omega))
      have hrec : fromHex (bytesHex rest) = some rest :=
        ih (fun x hx => h x (by simp [hx]))
      have hdm : 16 * (b / 16) + b % 16 = b := Nat.div_add_mod b 16
      simp [bytesHex, fromHex, h1, h2, hrec, hdm]

lemma memRead_memWrite (m : Nat → Nat) (addr : Nat) (data : List Nat) :
    memRead (memWrite m addr data) addr data.length = data := by
  apply List.ext_getElem
  · simp [memRead]
  · intro i h1 h2
    have hi : i < data.length := by simpa [memRead] using h1
    simp only [memRead, memWrite, List.getElem_map, List.getElem_range]
    rw [if_pos (by omega)]
    simp [List.getD_eq_getElem?_getD, List.getElem?_eq_getElem hi]

/-- C8: for any byte sequence of length at most 4096 and any address,
`Qtest.write(addr, data)` — which sends `write`, decimal `addr`, decimal
`len(data)` and `'0x' + data.hex()` and requires a token-free reply —
followed by `Qtest.read(addr, len(data))` — which requires exactly one
`0x`-prefixed token and hex-decodes its remainder — returns `data`
against the memory-backed server fixture. -/
theorem qtest_write_read_roundtrip (m : Nat → Nat) (addr : Nat)
    (data : List Nat) (hlen : data.length ≤ 4096)
    (hbytes : ∀ b ∈ data, b < 256) :
    write_then_read m addr data = some data := by
  have hblob : ("0x" ++ String.mk (bytesHex data)).data =
      '0' :: 'x' :: bytesHex data := by
    rw [String.data_append]
    rfl
  have hwrite : serverStep m (qtest_write_msg addr data) =
      (memWrite m addr data, ["OK"]) := by
    simp [serverStep, qtest_write_msg, parseDec_pyStrNat, hblob,
      fromHex_bytesHex data hbytes]
  have hreadmem : memRead (memWrite m addr data) addr data.length = data :=
    memRead_memWrite m addr data
  have hread : serverStep (memWrite m addr data)
      (qtest_read_msg addr data.length) =
      (memWrite m addr data, ["OK", "0x" ++ String.mk (bytesHex data)]) := by
    simp [serverStep, qtest_read_msg, parseDec_pyStrNat, hreadmem]
  have hok : classifyReply ["OK"] = .ok [] := by
    simp [classifyReply]
  have hok2 : classifyReply ["OK", "0x" ++ String.mk (bytesHex data)] =
      .ok ["0x" ++ String.mk (bytesHex data)] := by
    simp [classifyReply]
  simp [write_then_read, hwrite, hread, hok, hok2, qtest_write_check,
    qtest_read_finish, hblob, fromHex_bytesHex data hbytes]

/-- Witness for C8: writing the two bytes `0x68 0x69` at address 3 of an
all-zero memory and reading two bytes back returns them. -/
theorem qtest_write_read_roundtrip_witness :
    ([104, 105] : List Nat).length ≤ 4096 ∧
    write_then_read (fun _ => 0) 3 [104, 105] = some [104, 105] :=
  ⟨by decide,
   qtest_write_read_roundtrip (fun _ => 0) 3 [104, 105] (by decide)
     (by decide)⟩

end AQmp
